import Mathlib

/-!
Verification of the SSD1306 OLED display driver (`pal-ssd1306.cpp` /
`pal-ssd1306.h`).

The driver is shallowly embedded: the I2C bus transport is modelled as an
oracle of write outcomes together with a log of the byte sequences handed to
`i2c_write_blocking`; the screen buffer is a list of byte values (`Nat`s
below 256); `uint8_t` arithmetic is modelled on `Nat` with explicit `% 256`
at every point where the C code truncates, and `int16_t` quantities that
provably stay small (command arguments, the Bresenham error accumulator) are
modelled on `Int`.
-/

namespace PalSSD1306

/-- The I2C bus transport, abstracted: `pending` is the oracle of outcomes
for successive `i2c_write_blocking` calls (an exhausted oracle means the
write succeeds), and `log` records every byte sequence handed to the bus,
in order. -/
structure Bus where
  pending : List Bool
  log : List (List Nat)
deriving Repr, DecidableEq

/-- Model of `pal::SSD1306::write_buffer`: hand `data` to the bus and report
the transport's outcome. -/
def write_buffer (bus : Bus) (data : List Nat) : Bus × Bool :=
  (⟨bus.pending.tail, bus.log ++ [data]⟩, bus.pending.headD true)

/-! Command opcodes, from the `ssd1306_cmd_t` enum in `pal-ssd1306.h`. -/

def MEMORYMODE : Nat := 0x20
def COLUMNADDR : Nat := 0x21
def PAGEADDR : Nat := 0x22
def SETSTARTLINE : Nat := 0x40
def SETCONTRAST : Nat := 0x81
def CHARGEPUMP : Nat := 0x8D
def SEGREMAP : Nat := 0xA1
def DISPLAYALLON : Nat := 0xA4
def NORMALDISPLAY : Nat := 0xA6
def INVERTDISPLAY : Nat := 0xA7
def SETMULTIPLEX : Nat := 0xA8
def DISPLAYOFF : Nat := 0xAE
def DISPLAYON : Nat := 0xAF
def COMSCANDEC : Nat := 0xC8
def SETDISPLAYOFFSET : Nat := 0xD3
def SETDISPLAYCLOCKDIV : Nat := 0xD5
def SETPRECHARGE : Nat := 0xD9
def SETCOMPINS : Nat := 0xDA
def SETVCOMDETECT : Nat := 0xDB

/-- Model of `pal::SSD1306::write_cmd`.  Arguments are `int16_t` with the
sentinel `-1` (the header's default) meaning "absent".  The C body keeps a
mutable 2-byte `l_buffer`: it starts as `[0x00, cmd]`; each present argument
first flushes the current buffer (aborting with `false` on a failed write)
and then rebuilds it as `[0x00, arg & 0xFF]`; finally the current buffer is
flushed.  The nested conditionals below spell out the same data flow. -/
def write_cmd (bus : Bus) (cmd : Nat) (arg1 arg2 : Int) : Bus × Bool :=
  if 0 ≤ arg1 then
    let r1 := write_buffer bus [0x00, cmd]
    if r1.2 = false then (r1.1, false)
    else
      let buf1 : List Nat := [0x00, (arg1 % 256).toNat]
      if 0 ≤ arg2 then
        let r2 := write_buffer r1.1 buf1
        if r2.2 = false then (r2.1, false)
        else write_buffer r2.1 [0x00, (arg2 % 256).toNat]
      else write_buffer r1.1 buf1
  else
    if 0 ≤ arg2 then
      let r1 := write_buffer bus [0x00, cmd]
      if r1.2 = false then (r1.1, false)
      else write_buffer r1.1 [0x00, (arg2 % 256).toNat]
    else write_buffer bus [0x00, cmd]

/-- Model of the bus traffic of the `pal::SSD1306::SSD1306` constructor: the
sixteen `write_cmd` calls, in source order, each result discarded.  (The
constructor also allocates the screen buffer, which it leaves
uninitialised; that part has no bus effect and is not needed here.)
`height` is the `uint8_t` height parameter; `SETMULTIPLEX`'s argument is
`height - 1` computed in `int`, hence the `Int` subtraction. -/
def ssd1306_init (bus : Bus) (height : Nat) (ext : Bool) : Bus :=
  let b := (write_cmd bus DISPLAYOFF (-1) (-1)).1
  let b := (write_cmd b SETDISPLAYCLOCKDIV 0x80 (-1)).1
  let b := (write_cmd b SETMULTIPLEX ((height : Int) - 1) (-1)).1
  let b := (write_cmd b SETDISPLAYOFFSET 0x00 (-1)).1
  let b := (write_cmd b SETSTARTLINE (-1) (-1)).1
  let b := (write_cmd b CHARGEPUMP (if ext then 0x10 else 0x14) (-1)).1
  let b := (write_cmd b MEMORYMODE 0x00 (-1)).1
  let b := (write_cmd b SEGREMAP (-1) (-1)).1
  let b := (write_cmd b COMSCANDEC (-1) (-1)).1
  let b := (write_cmd b SETCOMPINS (if height = 64 then 0x12 else 0x02) (-1)).1
  let b := (write_cmd b SETCONTRAST 0xFF (-1)).1
  let b := (write_cmd b SETPRECHARGE (if ext then 0x22 else 0xF1) (-1)).1
  let b := (write_cmd b SETVCOMDETECT 0x40 (-1)).1
  let b := (write_cmd b DISPLAYALLON (-1) (-1)).1
  let b := (write_cmd b NORMALDISPLAY (-1) (-1)).1
  (write_cmd b DISPLAYON (-1) (-1)).1

/-- Model of `pal::SSD1306::render`: the two range commands (results
discarded — the C `render` is `void` and never inspects the `write_cmd`
returns), then the whole screen buffer prefixed with the `0x40` data control
byte as one bus write.  The local `l_cmd_buffer` the C code fills at the top
of `render` is dead (never passed to the bus) and is omitted.  `screen` is
the pixel portion of the buffer (`screen_ptr`), of length
`width * pagesize`. -/
def render (bus : Bus) (width pagesize : Nat) (screen : List Nat) : Bus :=
  let b1 := (write_cmd bus PAGEADDR 0 ((pagesize : Int) - 1)).1
  let b2 := (write_cmd b1 COLUMNADDR 0 ((width : Int) - 1)).1
  (write_buffer b2 (0x40 :: screen)).1

/-! ### The framebuffer and the drawing primitives -/

/-- Read the byte at index `i` of the screen buffer (an out-of-range C read
is modelled as 0; the in-range claims below never depend on that default). -/
def readByte (buf : List Nat) (i : Nat) : Nat :=
  buf.getD i 0

/-- Model of `pal::SSD1306::set_pixel` on the pixel portion of the screen
buffer (`screen_ptr`): out-of-range coordinates are ignored, otherwise bit
`y % 8` of the byte at index `width * (y / 8) + x` is set. -/
def set_pixel (w h : Nat) (buf : List Nat) (x y : Nat) : List Nat :=
  if w ≤ x ∨ h ≤ y then buf
  else buf.set (w * (y / 8) + x) (readByte buf (w * (y / 8) + x) ||| (1 <<< (y % 8)))

/-- Model of `pal::SSD1306::clear_pixel`: same bounds rule; the C code masks
with `~(0x01 << (y & 7))` on a `uint8_t`, i.e. with `0xFF ^^^ (1 <<< (y % 8))`. -/
def clear_pixel (w h : Nat) (buf : List Nat) (x y : Nat) : List Nat :=
  if w ≤ x ∨ h ≤ y then buf
  else buf.set (w * (y / 8) + x)
    (readByte buf (w * (y / 8) + x) &&& (0xFF ^^^ (1 <<< (y % 8))))

/-- The `if (p_set) set_pixel else clear_pixel` choice that every drawing
routine makes per pixel. -/
def put_pixel (w h : Nat) (buf : List Nat) (x y : Nat) (s : Bool) : List Nat :=
  if s then set_pixel w h buf x y else clear_pixel w h buf x y

/-- Framebuffer observation: the pixel at `(x, y)` is bit `y % 8` of the
byte at column `x` of page `y / 8`, exactly the location `set_pixel` and
`clear_pixel` write. -/
def getPixel (w : Nat) (buf : List Nat) (x y : Nat) : Bool :=
  (readByte buf (w * (y / 8) + x)).testBit (y % 8)

/-- One could run out of fuel, so the loop of `pal::SSD1306::draw_line`
returns `Option`: `none` means the iteration bound was exhausted before the
endpoint test fired (the C loop would still be running).  State per
iteration: current point `(lx, ly)` (each a `uint8_t`, stepped with
wrap-around `% 256`), error accumulator `err` (an `int16_t` that provably
stays small, modelled on `Int`), and the buffer.  Each iteration draws the
current pixel, stops if it is `(x2, y2)`, otherwise compares `2 * err`
against `dy` and `dx` exactly as the C code does. -/
def draw_line_loop (w h x2 y2 : Nat) (sx sy dx dy : Int) (s : Bool) :
    Nat → Nat → Nat → Int → List Nat → Option (List Nat)
  | 0, _, _, _, _ => none
  | fuel + 1, lx, ly, err, buf =>
    let buf1 := put_pixel w h buf lx ly s
    if lx = x2 ∧ ly = y2 then some buf1
    else
      let e2 := 2 * err
      let err1 := if dy ≤ e2 then err + dy else err
      let lx1 := if dy ≤ e2 then (((lx : Int) + sx) % 256).toNat else lx
      let err2 := if e2 ≤ dx then err1 + dx else err1
      let ly1 := if e2 ≤ dx then (((ly : Int) + sy) % 256).toNat else ly
      draw_line_loop w h x2 y2 sx sy dx dy s fuel lx1 ly1 err2 buf1

/-- Model of `pal::SSD1306::draw_line`, with the loop given
`|dx| + |dy| + 1` iterations of fuel (proved sufficient below): deltas,
step signs and the initial error exactly as in the source. -/
def draw_line_opt (w h : Nat) (buf : List Nat) (x1 y1 x2 y2 : Nat) (s : Bool) :
    Option (List Nat) :=
  let dx : Int := |(x2 : Int) - (x1 : Int)|
  let dy : Int := -|(y2 : Int) - (y1 : Int)|
  let sx : Int := if x1 < x2 then 1 else -1
  let sy : Int := if y1 < y2 then 1 else -1
  draw_line_loop w h x2 y2 sx sy dx dy s
    (dx.toNat + (-dy).toNat + 1) x1 y1 (dx + dy) buf

/-- `draw_line` as a total function on buffers (the fuel never runs out;
`draw_line_loop_spec` below proves it). -/
def draw_line (w h : Nat) (buf : List Nat) (x1 y1 x2 y2 : Nat) (s : Bool) :
    List Nat :=
  (draw_line_opt w h buf x1 y1 x2 y2 s).getD buf

/-- The row loop of the filled branch of `pal::SSD1306::draw_box`:
`for (uint8_t l_index = p_y + p_height + 1; l_index > p_y; l_index--)`
drawing a full-width line on row `l_index - 1` each time, i.e. rows
`y + c - 1, …, y` where `c` counts the remaining iterations
(`c = l_index - p_y`); the recursion is on that count.  Note the C calls
`draw_line` with its defaulted `p_set = true`, never the caller's flag. -/
def fill_rows (w h x bw y : Nat) : Nat → List Nat → List Nat
  | 0, buf => buf
  | c + 1, buf =>
    fill_rows w h x bw y c
      (draw_line w h buf x (y + c) ((x + bw) % 256) (y + c) true)

/-- Model of `pal::SSD1306::draw_box`.  `uint8_t` parameter passing
truncates `p_x + p_width`, `p_y + p_height` and the loop start
`p_y + p_height + 1` modulo 256. -/
def draw_box (w h : Nat) (buf : List Nat) (x y bw bh : Nat)
    (filled s : Bool) : List Nat :=
  if filled then
    fill_rows w h x bw y ((y + bh + 1) % 256 - y) buf
  else
    let b1 := draw_line w h buf x y ((x + bw) % 256) y s
    let b2 := draw_line w h b1 x ((y + bh) % 256) ((x + bw) % 256) ((y + bh) % 256) s
    let b3 := draw_line w h b2 x y x ((y + bh) % 256) s
    draw_line w h b3 ((x + bw) % 256) y ((x + bw) % 256) ((y + bh) % 256) s

/-! Ghost state for the `draw_line` loop: position, step sign, distance and
error accumulator after `a` x-steps and `b` y-steps.  These mirror the
quantities `l_x`/`l_y`, `l_sx`/`l_sy`, `l_dx`/`-l_dy` and `l_err` of the C
routine and are used only to state and prove its loop invariant. -/

/-- Coordinate after `a` unit steps from `c1` towards `c2`. -/
def linePos (c1 c2 a : Nat) : Nat :=
  if c1 < c2 then c1 + a else c1 - a

/-- The step sign `( c1 < c2 ) ? 1 : -1`. -/
def lineSign (c1 c2 : Nat) : Int :=
  if c1 < c2 then 1 else -1

/-- The distance `|c2 - c1|` as a natural number. -/
def lineDist (c1 c2 : Nat) : Nat :=
  if c1 < c2 then c2 - c1 else c1 - c2

/-- The value of the Bresenham error accumulator after `a` x-steps and `b`
y-steps: `dx * (b+1) - dy * (a+1)` where `dx`, `dy` are the two distances. -/
def lineErr (x1 x2 y1 y2 a b : Nat) : Int :=
  (lineDist x1 x2 : Int) * (b + 1) - (lineDist y1 y2 : Int) * (a + 1)

/-- The static `l_font` table of `pal::SSD1306::draw_char`, verbatim: 96
rows of five 7-bit column bytes, for codes 0x20–0x7E plus a final reserved
"undef" row. -/
def font : List (List Nat) := [
  [0b0000000, 0b0000000, 0b0000000, 0b0000000, 0b0000000],
  [0b0000000, 0b0000000, 0b1111101, 0b0000000, 0b0000000],
  [0b0000000, 0b1110000, 0b0000000, 0b1110000, 0b0000000],
  [0b0010100, 0b1111111, 0b0010100, 0b1111111, 0b0010100],
  [0b0010010, 0b0101010, 0b1111111, 0b0101010, 0b0100100],
  [0b1100010, 0b1100100, 0b0001000, 0b0010011, 0b0100011],
  [0b0110110, 0b1001001, 0b1010101, 0b0100010, 0b0000101],
  [0b0000000, 0b0000000, 0b1100000, 0b0000000, 0b0000000],
  [0b0000000, 0b0011100, 0b0100010, 0b1000001, 0b0000000],
  [0b0000000, 0b1000001, 0b0100010, 0b0011100, 0b0000000],
  [0b0010100, 0b0001000, 0b0111110, 0b0001000, 0b0010100],
  [0b0001000, 0b0001000, 0b0111110, 0b0001000, 0b0001000],
  [0b0000000, 0b0000101, 0b0000110, 0b0000000, 0b0000000],
  [0b0001000, 0b0001000, 0b0001000, 0b0001000, 0b0001000],
  [0b0000000, 0b0000011, 0b0000011, 0b0000000, 0b0000000],
  [0b0000010, 0b0000100, 0b0001000, 0b0010000, 0b0100000],
  [0b0111110, 0b1000101, 0b1001001, 0b1010001, 0b0111110],
  [0b0000000, 0b0100001, 0b1111111, 0b0000001, 0b0000000],
  [0b0100011, 0b1000101, 0b1001001, 0b1001001, 0b0110001],
  [0b0100010, 0b1000001, 0b1001001, 0b1001001, 0b0110110],
  [0b0001100, 0b0010100, 0b0100100, 0b1111111, 0b0000100],
  [0b1110010, 0b1010001, 0b1010001, 0b1010001, 0b1001110],
  [0b0011110, 0b0101001, 0b1001001, 0b1001001, 0b0000110],
  [0b1000000, 0b1000111, 0b1001000, 0b1010000, 0b1100000],
  [0b0110110, 0b1001001, 0b1001001, 0b1001001, 0b0110110],
  [0b0110000, 0b1001001, 0b1001001, 0b1001010, 0b0111100],
  [0b0000000, 0b0110110, 0b0110110, 0b0000000, 0b0000000],
  [0b0000000, 0b0110101, 0b0110110, 0b0000000, 0b0000000],
  [0b0001000, 0b0010100, 0b0100010, 0b1000001, 0b0000000],
  [0b0010100, 0b0010100, 0b0010100, 0b0010100, 0b0010100],
  [0b0000000, 0b1000001, 0b0100010, 0b0010100, 0b0001000],
  [0b0100000, 0b1000000, 0b1000101, 0b1001000, 0b0110000],
  [0b0100110, 0b1001001, 0b1001111, 0b1000001, 0b0111110],
  [0b0011111, 0b0100100, 0b1000100, 0b0100100, 0b0011111],
  [0b1000001, 0b1111111, 0b1001001, 0b1001001, 0b0110110],
  [0b0111110, 0b1000001, 0b1000001, 0b1000001, 0b0100010],
  [0b1000001, 0b1111111, 0b1000001, 0b1000001, 0b0111110],
  [0b1111111, 0b1001001, 0b1001001, 0b1001001, 0b1000001],
  [0b1111111, 0b1001000, 0b1001000, 0b1001000, 0b1000000],
  [0b0111110, 0b1000001, 0b1000001, 0b1001001, 0b0101111],
  [0b1111111, 0b0001000, 0b0001000, 0b0001000, 0b1111111],
  [0b0000000, 0b1000001, 0b1111111, 0b1000001, 0b0000000],
  [0b0000010, 0b0000001, 0b1000001, 0b1111110, 0b1000000],
  [0b1111111, 0b0001000, 0b0010100, 0b0100010, 0b1000001],
  [0b1111111, 0b0000001, 0b0000001, 0b0000001, 0b0000001],
  [0b1111111, 0b0100000, 0b0011000, 0b0100000, 0b1111111],
  [0b1111111, 0b0010000, 0b0001000, 0b0000100, 0b1111111],
  [0b0111110, 0b1000001, 0b1000001, 0b1000001, 0b0111110],
  [0b1111111, 0b1001000, 0b1001000, 0b1001000, 0b0110000],
  [0b0111110, 0b1000001, 0b1000101, 0b1000010, 0b0111101],
  [0b1111111, 0b1001000, 0b1001100, 0b1001010, 0b0110001],
  [0b0110010, 0b1001001, 0b1001001, 0b1001001, 0b0100110],
  [0b1000000, 0b1000000, 0b1111111, 0b1000000, 0b1000000],
  [0b1111110, 0b0000001, 0b0000001, 0b0000001, 0b1111110],
  [0b1111100, 0b0000010, 0b0000001, 0b0000010, 0b1111100],
  [0b1111110, 0b0000001, 0b0001110, 0b0000001, 0b1111110],
  [0b1100011, 0b0010100, 0b0001000, 0b0010100, 0b1100011],
  [0b1110000, 0b0001000, 0b0000111, 0b0001000, 0b1110000],
  [0b1000011, 0b1000101, 0b1001001, 0b1010001, 0b1100001],
  [0b0000000, 0b1111111, 0b1000001, 0b1000001, 0b0000000],
  [0b0100000, 0b0010000, 0b0001000, 0b0000100, 0b0000010],
  [0b0000000, 0b1000001, 0b1000001, 0b1111111, 0b0000000],
  [0b0010000, 0b0100000, 0b1000000, 0b0100000, 0b0010000],
  [0b0000001, 0b0000001, 0b0000001, 0b0000001, 0b0000001],
  [0b0000000, 0b1000000, 0b0100000, 0b0010000, 0b0000000],
  [0b0000010, 0b0010101, 0b0010101, 0b0010101, 0b0001111],
  [0b1111111, 0b0001001, 0b0010001, 0b0010001, 0b0001110],
  [0b0001110, 0b0010001, 0b0010001, 0b0010001, 0b0000010],
  [0b0001110, 0b0010001, 0b0010001, 0b0001001, 0b1111111],
  [0b0001110, 0b0010101, 0b0010101, 0b0010101, 0b0001100],
  [0b0001000, 0b0111111, 0b1001000, 0b1000000, 0b0100000],
  [0b0001000, 0b0010101, 0b0010101, 0b0010101, 0b0011110],
  [0b1111111, 0b0001000, 0b0010000, 0b0010000, 0b0001111],
  [0b0000000, 0b0001001, 0b1011111, 0b0000001, 0b0000000],
  [0b0000010, 0b0000001, 0b0010001, 0b1011110, 0b0000000],
  [0b1111111, 0b0000100, 0b0001010, 0b0010001, 0b0000000],
  [0b0000000, 0b1000001, 0b1111111, 0b0000001, 0b0000000],
  [0b0011111, 0b0010000, 0b0001111, 0b0010000, 0b0001111],
  [0b0011111, 0b0001000, 0b0010000, 0b0010000, 0b0001111],
  [0b0001110, 0b0010001, 0b0010001, 0b0010001, 0b0001110],
  [0b0011111, 0b0010100, 0b0010100, 0b0010100, 0b0001000],
  [0b0001000, 0b0010100, 0b0010100, 0b0001100, 0b0011111],
  [0b0011111, 0b0001000, 0b0010000, 0b0010000, 0b0001000],
  [0b0001001, 0b0010101, 0b0010101, 0b0010101, 0b0000010],
  [0b0010000, 0b1111110, 0b0010001, 0b0000001, 0b0000010],
  [0b0011110, 0b0000001, 0b0000001, 0b0000010, 0b0011111],
  [0b0011100, 0b0000010, 0b0000001, 0b0000010, 0b0011100],
  [0b0011110, 0b0000001, 0b0000110, 0b0000001, 0b0011110],
  [0b0010001, 0b0001010, 0b0000100, 0b0001010, 0b0010001],
  [0b0011000, 0b0000101, 0b0000101, 0b0000101, 0b0011110],
  [0b0010001, 0b0010011, 0b0010101, 0b0011001, 0b0010001],
  [0b0000000, 0b0001000, 0b0110110, 0b1000001, 0b0000000],
  [0b0000000, 0b0000000, 0b1111111, 0b0000000, 0b0000000],
  [0b0000000, 0b1000001, 0b0110110, 0b0001000, 0b0000000],
  [0b0000100, 0b0001000, 0b0001000, 0b0000100, 0b0001000],
  [0b0000110, 0b0001001, 0b1010001, 0b0000001, 0b0000010]]

/-- The table index `draw_char` computes:
`( p_char < 0x20 || p_char > 0x7E ) ? 0x7F : p_char - 0x20`.
For out-of-range codes this is `0x7F` = 127 — past the end of the 96-row
`l_font` table (the reserved "undef" row sits at index 95 and is never
selected). -/
def glyph_index (c : Nat) : Nat :=
  if c < 0x20 ∨ 0x7E < c then 0x7F else c - 0x20

/-- Model of `pal::SSD1306::draw_char`.  The out-of-bounds table read the C
code performs for non-printable codes (index 127 of a 96-row array, which is
undefined behaviour in C++) is modelled as reading an all-zero glyph (`getD`
with default `[]`), so that the modelled control flow continues; no claim
below relies on what that read yields.  Pixel coordinates `p_x + l_x`,
`p_y + l_y` are truncated modulo 256 by `set_pixel`'s `uint8_t`
parameters. -/
def draw_char (w h : Nat) (buf : List Nat) (x y c : Nat) (s : Bool) : List Nat :=
  let glyph := font.getD (glyph_index c) []
  (List.range 5).foldl (fun b lx =>
    (List.range 7).foldl (fun b ly =>
      if (glyph.getD lx 0).testBit (6 - ly) then
        put_pixel w h b ((x + lx) % 256) ((y + ly) % 256) s
      else b) b) buf

/-- Model of `pal::SSD1306::draw_text`: `text` is the list of byte values of
the C string (up to its NUL).  Character `i` is drawn at x-origin
`p_x + i * 6`, truncated modulo 256 by `draw_char`'s `uint8_t` parameter. -/
def draw_text (w h : Nat) (buf : List Nat) (x y : Nat) (text : List Nat)
    (s : Bool) : List Nat :=
  (List.range text.length).foldl (fun b i =>
    draw_char w h b ((x + i * 6) % 256) y (text.getD i 0) s) buf

/-! ### General helper lemmas -/

theorem foldl_id {α β : Type} (f : α → β → α) (l : List β) (b : α)
    (hf : ∀ a x, x ∈ l → f a x = a) : l.foldl f b = b := by
  induction l generalizing b with
  | nil => rfl
  | cons hd tl ih =>
    rw [List.foldl_cons, hf b hd (by simp)]
    exact ih b fun a x hx => hf a x (by simp [hx])

theorem set_getD_self (l : List Nat) (n : Nat) : l.set n (l.getD n 0) = l := by
  induction l generalizing n with
  | nil => rfl
  | cons hd tl ih =>
    cases n with
    | zero => rfl
    | succ m => simpa [List.set, List.getD] using ih m

theorem set_getD_self' (l : List Nat) (n : Nat) :
    l.set n (readByte l n) = l := set_getD_self l n

theorem readByte_set_eq (l : List Nat) (n v : Nat) (h : n < l.length) :
    readByte (l.set n v) n = v := by
  simp [readByte, List.getD, List.getElem?_set, h]

theorem readByte_set_eq_oob (l : List Nat) (n v : Nat) (h : ¬n < l.length) :
    readByte (l.set n v) n = readByte l n := by
  simp [readByte, List.getD, List.getElem?_set, h,
    List.getElem?_eq_none (Nat.le_of_not_lt h)]

theorem readByte_set_ne (l : List Nat) (n m v : Nat) (h : ¬n = m) :
    readByte (l.set n v) m = readByte l m := by
  simp [readByte, List.getD, List.getElem?_set, h]

theorem byte_testBit_high {b j : Nat} (hb : b < 256) (hj : 8 ≤ j) :
    b.testBit j = false := by
  apply Nat.testBit_lt_two_pow
  calc b < 256 := hb
  _ = 2 ^ 8 := by norm_num
  _ ≤ 2 ^ j := Nat.pow_le_pow_right (by norm_num) hj

theorem pow_testBit_ne {k j : Nat} (hne : k ≠ j) :
    (1 <<< k : Nat).testBit j = false := by
  rw [Nat.one_shiftLeft]
  exact Nat.testBit_two_pow_of_ne hne

theorem mask_testBit_lo {k j : Nat} (_hk : k < 8) (hj : j < 8) (hne : j ≠ k) :
    (0xFF ^^^ (1 <<< k)).testBit j = true := by
  rw [Nat.testBit_xor, pow_testBit_ne (by omega)]
  have h255 : (0xFF : Nat).testBit j = true := by
    interval_cases j <;> decide
  simp [h255]

theorem mask_testBit_self {k : Nat} (hk : k < 8) :
    (0xFF ^^^ (1 <<< k)).testBit k = false := by
  interval_cases k <;> decide

theorem mask_testBit_hi {k j : Nat} (hk : k < 8) (hj : 8 ≤ j) :
    (0xFF ^^^ (1 <<< k)).testBit j = false := by
  rw [Nat.testBit_xor, pow_testBit_ne (by omega),
    byte_testBit_high (by norm_num) hj]
  rfl

/-! ### Pixel-level lemmas -/

theorem put_pixel_length (w h : Nat) (buf : List Nat) (u v : Nat) (s : Bool) :
    (put_pixel w h buf u v s).length = buf.length := by
  unfold put_pixel set_pixel clear_pixel
  split <;> split <;> simp

/-- Drawing one pixel with value `s` never destroys another pixel already
holding value `s`: every bit the write touches is forced to `s` itself. -/
theorem put_pixel_preserves (w h : Nat) (buf : List Nat) (u v p q : Nat)
    (s : Bool) (hpq : getPixel w buf p q = s) :
    getPixel w (put_pixel w h buf u v s) p q = s := by
  by_cases hg : w ≤ u ∨ h ≤ v
  · have hnop : put_pixel w h buf u v s = buf := by
      unfold put_pixel set_pixel clear_pixel
      cases s <;> simp [hg]
    rw [hnop]; exact hpq
  · have hq8 : q % 8 < 8 := Nat.mod_lt _ (by omega)
    have hv8 : v % 8 < 8 := Nat.mod_lt _ (by omega)
    unfold getPixel at hpq ⊢
    by_cases hi : w * (v / 8) + u = w * (q / 8) + p
    · by_cases hlen : w * (v / 8) + u < buf.length
      · have heq : ∀ z : Nat,
            readByte (buf.set (w * (v / 8) + u) z) (w * (q / 8) + p) = z := by
          intro z; rw [← hi]; exact readByte_set_eq buf _ z hlen
        cases s with
        | true =>
          unfold put_pixel set_pixel
          rw [if_pos rfl, if_neg hg, heq]
          by_cases hbit : v % 8 = q % 8
          · rw [Nat.testBit_or, hbit, Nat.one_shiftLeft, Nat.testBit_two_pow_self]
            simp
          · rw [Nat.testBit_or, pow_testBit_ne hbit, hi, hpq]
            rfl
        | false =>
          unfold put_pixel clear_pixel
          rw [if_neg (by simp), if_neg hg, heq]
          by_cases hbit : v % 8 = q % 8
          · rw [Nat.testBit_and, hbit, mask_testBit_self hq8]
            simp
          · rw [Nat.testBit_and, mask_testBit_lo hv8 hq8 (fun hc => hbit hc.symm),
              hi, hpq]
            rfl
      · have heq : ∀ z : Nat,
            readByte (buf.set (w * (v / 8) + u) z) (w * (q / 8) + p) =
              readByte buf (w * (q / 8) + p) := by
          intro z; rw [← hi]; exact readByte_set_eq_oob buf _ z hlen
        unfold put_pixel set_pixel clear_pixel
        cases s with
        | true => rw [if_pos rfl, if_neg hg, heq]; exact hpq
        | false => rw [if_neg (by simp), if_neg hg, heq]; exact hpq
    · have heq : ∀ z : Nat,
          readByte (buf.set (w * (v / 8) + u) z) (w * (q / 8) + p) =
            readByte buf (w * (q / 8) + p) :=
        fun z => readByte_set_ne buf _ _ z hi
      unfold put_pixel set_pixel clear_pixel
      cases s with
      | true => rw [if_pos rfl, if_neg hg, heq]; exact hpq
      | false => rw [if_neg (by simp), if_neg hg, heq]; exact hpq

/-- Drawing an in-range pixel on a buffer covering the geometry makes that
pixel read back as the drawn value. -/
theorem put_pixel_draws (w h : Nat) (buf : List Nat) (u v : Nat) (s : Bool)
    (hu : u < w) (hv : v < h) (hlen : w * ((h + 7) / 8) ≤ buf.length) :
    getPixel w (put_pixel w h buf u v s) u v = s := by
  have hpage : v / 8 + 1 ≤ (h + 7) / 8 := by omega
  have hidx : w * (v / 8) + u < buf.length :=
    calc w * (v / 8) + u < w * (v / 8) + w := Nat.add_lt_add_left hu _
    _ = w * (v / 8 + 1) := by ring
    _ ≤ w * ((h + 7) / 8) := Nat.mul_le_mul_left w hpage
    _ ≤ buf.length := hlen
  have hg : ¬(w ≤ u ∨ h ≤ v) := by omega
  have hk : v % 8 < 8 := Nat.mod_lt _ (by omega)
  unfold put_pixel set_pixel clear_pixel getPixel
  cases s with
  | true =>
    rw [if_pos rfl, if_neg hg, readByte_set_eq buf _ _ hidx]
    rw [Nat.testBit_or, Nat.one_shiftLeft, Nat.testBit_two_pow_self]
    simp
  | false =>
    rw [if_neg (by simp), if_neg hg, readByte_set_eq buf _ _ hidx]
    rw [Nat.testBit_and, mask_testBit_self hk]
    simp

/-! ### Claim C1 -/

/-- C1: for character codes outside the printable range 0x20–0x7E (e.g. the
control character 0x01), `draw_char` does NOT draw the reserved undefined
glyph: the index it computes is 0x7F = 127, which lies past the end of the
96-row font table (an out-of-bounds array read in the C code), while the
reserved "undef" row sits at index 95 — an index the computation can never
produce for any character code. -/
theorem draw_char_undef_oob :
    glyph_index 0x01 = 0x7F ∧ font.length = 96 ∧
    font.length ≤ glyph_index 0x01 ∧ ∀ c : Nat, glyph_index c ≠ 95 := by
  refine ⟨rfl, rfl, by decide, fun c => ?_⟩
  unfold glyph_index
  split <;> omega

/-! ### Claim C9 -/

/-- C9: for every coordinate pair with `x ≥ width` or `y ≥ height`, and any
prior buffer content, `set_pixel` and `clear_pixel` leave the framebuffer
entirely unchanged. -/
theorem pixel_bounds_noop (w h : Nat) (buf : List Nat) (x y : Nat)
    (hout : w ≤ x ∨ h ≤ y) :
    set_pixel w h buf x y = buf ∧ clear_pixel w h buf x y = buf := by
  unfold set_pixel clear_pixel
  rw [if_pos hout, if_pos hout]
  exact ⟨rfl, rfl⟩

theorem pixel_bounds_noop_witness :
    (128 ≤ 200 ∨ 64 ≤ 3) ∧
      set_pixel 128 64 [7, 7, 7] 200 3 = [7, 7, 7] ∧
      clear_pixel 128 64 [7, 7, 7] 200 3 = [7, 7, 7] :=
  ⟨Or.inl (by decide), pixel_bounds_noop 128 64 [7, 7, 7] 200 3 (Or.inl (by decide))⟩

/-! ### Claim C4 -/

/-- C4: `draw_box` with `filled = true` ignores the `set` argument — the
per-row `draw_line` calls use the C default `p_set = true` — so a filled box
with `set = false` still turns pixels on, while the unfilled variant passes
`set` through to its four edge lines (witnessed by a `set = false` outline
clearing an edge pixel of an all-ones buffer). -/
theorem draw_box_filled_ignores_set :
    (∀ (w h : Nat) (buf : List Nat) (x y bw bh : Nat) (s : Bool),
      draw_box w h buf x y bw bh true s = draw_box w h buf x y bw bh true true) ∧
    getPixel 32 (draw_box 32 24 (List.replicate 96 0) 10 10 2 2 true false)
      10 10 = true ∧
    getPixel 32 (draw_box 32 24 (List.replicate 96 255) 10 10 2 2 false false)
      10 10 = false := by
  refine ⟨fun w h buf x y bw bh s => rfl, by decide, by decide⟩

/-! ### Claim C10, counterexample -/

/-- C10 fails as stated: on a buffer whose pixel (0,0) is already set,
`set_pixel` followed by `clear_pixel` at (0,0) yields the bit cleared, not
the prior framebuffer content. -/
theorem set_clear_not_inverse_cex :
    clear_pixel 8 8 (set_pixel 8 8 [1, 0, 0, 0, 0, 0, 0, 0] 0 0) 0 0 ≠
      [1, 0, 0, 0, 0, 0, 0, 0] := by decide

/-! ### Claim C2, counterexample -/

/-- C2 fails as stated: with a transport that fails the very first bus
write (the page-address command byte-pair), `render` still transmits the
column-address command (three byte-pairs) and the framebuffer payload, and
returns no failure indication (the C `render` is `void`). -/
theorem render_continues_after_failure_cex :
    (render ⟨[false], []⟩ 4 1 [0, 0, 0, 0]).log =
      [[0x00, PAGEADDR], [0x00, COLUMNADDR], [0x00, 0], [0x00, 3],
        [0x40, 0, 0, 0, 0]] := by decide

/-! ### Claim C3, counterexample -/

/-- C3 fails as stated: on a 16×8 display, `draw_text` at x-origin 254 of
the single character # (code 35) — a character all of whose pixel columns
254–258 lie beyond the visible width — changes the framebuffer: the column
arithmetic wraps modulo 256 (a `uint8_t` parameter), so glyph column 2
lands at visible column (254 + 2) % 256 = 0 and pixel (0, 2) is set. -/
theorem draw_text_wraps_cex :
    16 ≤ 254 ∧
    getPixel 16 (draw_text 16 8 (List.replicate 16 0) 254 0 [35] true) 0 2 =
      true ∧
    draw_text 16 8 (List.replicate 16 0) 254 0 [35] true ≠
      List.replicate 16 0 := by decide

/-! ### Bus-level lemmas for `write_cmd` -/

theorem write_buffer_fst (log : List (List Nat)) (pend : List Bool)
    (data : List Nat) :
    (write_buffer ⟨pend, log⟩ data).1 = ⟨pend.tail, log ++ [data]⟩ := rfl

theorem write_cmd_ok0 (log : List (List Nat)) (cmd : Nat) :
    write_cmd ⟨[], log⟩ cmd (-1) (-1) = (⟨[], log ++ [[0x00, cmd]]⟩, true) := by
  unfold write_cmd
  norm_num [write_buffer]

theorem write_cmd_ok1 (log : List (List Nat)) (cmd : Nat) (a : Int)
    (h0 : 0 ≤ a) (h256 : a < 256) :
    write_cmd ⟨[], log⟩ cmd a (-1) =
      (⟨[], log ++ [[0x00, cmd], [0x00, a.toNat]]⟩, true) := by
  have hmod : a % 256 = a := Int.emod_eq_of_lt h0 h256
  unfold write_cmd
  rw [if_pos h0]
  norm_num [write_buffer, hmod]

theorem write_cmd_ok2 (log : List (List Nat)) (cmd : Nat) (a b : Int)
    (h0a : 0 ≤ a) (h256a : a < 256) (h0b : 0 ≤ b) (h256b : b < 256) :
    write_cmd ⟨[], log⟩ cmd a b =
      (⟨[], log ++ [[0x00, cmd], [0x00, a.toNat], [0x00, b.toNat]]⟩, true) := by
  have hmoda : a % 256 = a := Int.emod_eq_of_lt h0a h256a
  have hmodb : b % 256 = b := Int.emod_eq_of_lt h0b h256b
  unfold write_cmd
  rw [if_pos h0a]
  norm_num [write_buffer, hmoda, hmodb, if_pos h0b]

theorem write_cmd_fail1 (rest : List Bool) (log : List (List Nat)) (cmd : Nat)
    (a b : Int) (h0 : 0 ≤ a) :
    write_cmd ⟨false :: rest, log⟩ cmd a b =
      (⟨rest, log ++ [[0x00, cmd]]⟩, false) := by
  unfold write_cmd
  rw [if_pos h0]
  norm_num [write_buffer]

theorem write_cmd_fail2 (rest : List Bool) (log : List (List Nat)) (cmd : Nat)
    (a b : Int) (h0a : 0 ≤ a) (h256a : a < 256) :
    write_cmd ⟨true :: false :: rest, log⟩ cmd a b =
      (⟨rest, log ++ [[0x00, cmd], [0x00, a.toNat]]⟩, false) := by
  have hmoda : a % 256 = a := Int.emod_eq_of_lt h0a h256a
  unfold write_cmd
  rw [if_pos h0a]
  norm_num [write_buffer, hmoda]

/-! ### Claim C5 -/

/-- C5: a command with zero, one or two arguments is transmitted as exactly
one, two or three 2-byte bus writes, each `0x00` followed by the opcode or
argument byte; a failure on any write aborts the encoding — the remaining
byte-pairs are not transmitted — and the operation reports `false`. -/
theorem write_cmd_framing (cmd a1 a2 : Nat) (log : List (List Nat))
    (h1 : a1 < 256) (h2 : a2 < 256) :
    write_cmd ⟨[], log⟩ cmd (-1) (-1) = (⟨[], log ++ [[0x00, cmd]]⟩, true) ∧
    write_cmd ⟨[], log⟩ cmd (a1 : Int) (-1) =
      (⟨[], log ++ [[0x00, cmd], [0x00, a1]]⟩, true) ∧
    write_cmd ⟨[], log⟩ cmd (a1 : Int) (a2 : Int) =
      (⟨[], log ++ [[0x00, cmd], [0x00, a1], [0x00, a2]]⟩, true) ∧
    write_cmd ⟨[false], log⟩ cmd (a1 : Int) (a2 : Int) =
      (⟨[], log ++ [[0x00, cmd]]⟩, false) ∧
    ∀ rest : List Bool,
      write_cmd ⟨true :: false :: rest, log⟩ cmd (a1 : Int) (a2 : Int) =
        (⟨rest, log ++ [[0x00, cmd], [0x00, a1]]⟩, false) := by
  have c1 : ((a1 : Int)).toNat = a1 := Int.toNat_natCast a1
  have c2 : ((a2 : Int)).toNat = a2 := Int.toNat_natCast a2
  refine ⟨write_cmd_ok0 log cmd, ?_, ?_, ?_, fun rest => ?_⟩
  · rw [write_cmd_ok1 log cmd _ (Int.natCast_nonneg a1) (by omega), c1]
  · rw [write_cmd_ok2 log cmd _ _ (Int.natCast_nonneg a1) (by omega)
      (Int.natCast_nonneg a2) (by omega), c1, c2]
  · rw [write_cmd_fail1 [] log cmd _ _ (Int.natCast_nonneg a1)]
  · rw [write_cmd_fail2 rest log cmd _ _ (Int.natCast_nonneg a1) (by omega), c1]

theorem write_cmd_framing_witness :
    (5 : Nat) < 256 ∧ (7 : Nat) < 256 ∧
    write_cmd ⟨[], []⟩ 0x81 ((5 : Nat) : Int) ((7 : Nat) : Int) =
      (⟨[], [[0x00, 0x81], [0x00, 5], [0x00, 7]]⟩, true) :=
  ⟨by decide, by decide,
    (write_cmd_framing 0x81 5 7 [] (by decide) (by decide)).2.2.1⟩

/-! ### Claim C6 -/

/-- C6: construction transmits the fixed 16-command initialisation sequence
in exactly the source order, with the power-mode-dependent charge pump and
pre-charge arguments, the height-dependent multiplex and COM-pin arguments,
contrast 0xFF, and VCOM level 0x40; with every bus write succeeding, the
transmitted byte-pairs are exactly the list below. -/
theorem ssd1306_init_sequence (height : Nat) (ext : Bool)
    (log : List (List Nat)) (hh1 : 1 ≤ height) (hh2 : height ≤ 255) :
    ssd1306_init ⟨[], log⟩ height ext =
      ⟨[], log ++
        [[0x00, DISPLAYOFF],
         [0x00, SETDISPLAYCLOCKDIV], [0x00, 0x80],
         [0x00, SETMULTIPLEX], [0x00, height - 1],
         [0x00, SETDISPLAYOFFSET], [0x00, 0x00],
         [0x00, SETSTARTLINE],
         [0x00, CHARGEPUMP], [0x00, if ext then 0x10 else 0x14],
         [0x00, MEMORYMODE], [0x00, 0x00],
         [0x00, SEGREMAP],
         [0x00, COMSCANDEC],
         [0x00, SETCOMPINS], [0x00, if height = 64 then 0x12 else 0x02],
         [0x00, SETCONTRAST], [0x00, 0xFF],
         [0x00, SETPRECHARGE], [0x00, if ext then 0x22 else 0xF1],
         [0x00, SETVCOMDETECT], [0x00, 0x40],
         [0x00, DISPLAYALLON],
         [0x00, NORMALDISPLAY],
         [0x00, DISPLAYON]]⟩ := by
  have hm0 : (0 : Int) ≤ (height : Int) - 1 := by omega
  have hm256 : (height : Int) - 1 < 256 := by omega
  have hmt : ((height : Int) - 1).toNat = height - 1 := by omega
  have hc0 : (0 : Int) ≤ if height = 64 then 0x12 else 0x02 := by
    split <;> norm_num
  have hc256 : (if height = 64 then (0x12 : Int) else 0x02) < 256 := by
    split <;> norm_num
  have hct : (if height = 64 then (0x12 : Int) else 0x02).toNat =
      if height = 64 then 0x12 else 0x02 := by
    split <;> rfl
  cases ext <;>
    simp only [ssd1306_init, if_true, Bool.false_eq_true, if_false] <;>
    rw [write_cmd_ok0,
      write_cmd_ok1 _ _ _ (by norm_num) (by norm_num),
      write_cmd_ok1 _ _ _ hm0 hm256,
      write_cmd_ok1 _ _ _ (by norm_num) (by norm_num),
      write_cmd_ok0,
      write_cmd_ok1 _ _ _ (by norm_num) (by norm_num),
      write_cmd_ok1 _ _ _ (by norm_num) (by norm_num),
      write_cmd_ok0,
      write_cmd_ok0,
      write_cmd_ok1 _ _ _ hc0 hc256,
      write_cmd_ok1 _ _ _ (by norm_num) (by norm_num),
      write_cmd_ok1 _ _ _ (by norm_num) (by norm_num),
      write_cmd_ok1 _ _ _ (by norm_num) (by norm_num),
      write_cmd_ok0,
      write_cmd_ok0,
      write_cmd_ok0] <;>
    simp [hmt, hct]

theorem ssd1306_init_sequence_witness :
    (1 : Nat) ≤ 64 ∧ (64 : Nat) ≤ 255 ∧
    ssd1306_init ⟨[], []⟩ 64 false =
      ⟨[], [[0x00, DISPLAYOFF],
        [0x00, SETDISPLAYCLOCKDIV], [0x00, 0x80],
        [0x00, SETMULTIPLEX], [0x00, 63],
        [0x00, SETDISPLAYOFFSET], [0x00, 0x00],
        [0x00, SETSTARTLINE],
        [0x00, CHARGEPUMP], [0x00, 0x14],
        [0x00, MEMORYMODE], [0x00, 0x00],
        [0x00, SEGREMAP],
        [0x00, COMSCANDEC],
        [0x00, SETCOMPINS], [0x00, 0x12],
        [0x00, SETCONTRAST], [0x00, 0xFF],
        [0x00, SETPRECHARGE], [0x00, 0xF1],
        [0x00, SETVCOMDETECT], [0x00, 0x40],
        [0x00, DISPLAYALLON],
        [0x00, NORMALDISPLAY],
        [0x00, DISPLAYON]]⟩ := by
  refine ⟨by decide, by decide, ?_⟩
  have h := ssd1306_init_sequence 64 false [] (by decide) (by decide)
  simpa using h

/-! ### Claim C2, amended theorem -/

/-- C2 amended: if the bus write of the page-address command fails, `render`
nevertheless continues — the column-address command (three byte-pairs) and
the full framebuffer payload (`0x40` prefix plus the screen bytes) are still
handed to the bus — and `render` surfaces no failure (it returns only the
transport state; the C function is `void`). -/
theorem render_attempts_all_writes (w p : Nat) (screen : List Nat)
    (log : List (List Nat)) (hw1 : 1 ≤ w) (hw2 : w ≤ 256) :
    render ⟨[false], log⟩ w p screen =
      ⟨[], log ++ [[0x00, PAGEADDR], [0x00, COLUMNADDR], [0x00, 0],
        [0x00, w - 1], 0x40 :: screen]⟩ := by
  have hw0 : (0 : Int) ≤ (w : Int) - 1 := by omega
  have hw256 : (w : Int) - 1 < 256 := by omega
  have hwt : ((w : Int) - 1).toNat = w - 1 := by omega
  simp only [render]
  rw [show (write_cmd ⟨[false], log⟩ PAGEADDR 0 ((p : Int) - 1)).1 =
      ⟨[], log ++ [[0x00, PAGEADDR]]⟩ from
    congrArg Prod.fst (write_cmd_fail1 [] log PAGEADDR _ _ (by norm_num))]
  rw [show (write_cmd ⟨[], log ++ [[0x00, PAGEADDR]]⟩ COLUMNADDR 0
        ((w : Int) - 1)).1 =
      ⟨[], (log ++ [[0x00, PAGEADDR]]) ++
        [[0x00, COLUMNADDR], [0x00, (0 : Int).toNat],
          [0x00, ((w : Int) - 1).toNat]]⟩ from
    congrArg Prod.fst
      (write_cmd_ok2 _ COLUMNADDR _ _ (by norm_num) (by norm_num) hw0 hw256)]
  rw [write_buffer_fst]
  simp [hwt]

theorem render_attempts_all_writes_witness :
    (1 : Nat) ≤ 4 ∧ (4 : Nat) ≤ 256 ∧
    render ⟨[false], []⟩ 4 1 [9, 9, 9, 9] =
      ⟨[], [[0x00, PAGEADDR], [0x00, COLUMNADDR], [0x00, 0], [0x00, 3],
        [0x40, 9, 9, 9, 9]]⟩ := by
  refine ⟨by decide, by decide, ?_⟩
  have h := render_attempts_all_writes 4 1 [9, 9, 9, 9] [] (by decide) (by decide)
  simpa using h

/-! ### Claim C3, amended theorem -/

theorem put_pixel_off_right (w h : Nat) (buf : List Nat) (x y : Nat) (s : Bool)
    (hx : w ≤ x) : put_pixel w h buf x y s = buf := by
  unfold put_pixel set_pixel clear_pixel
  cases s <;> simp [hx]

theorem draw_char_off_right (w h : Nat) (buf : List Nat) (x y c : Nat)
    (s : Bool) (hx : w ≤ x) (hb : x + 4 < 256) :
    draw_char w h buf x y c s = buf := by
  unfold draw_char
  apply foldl_id
  intro b lx hlx
  have hlx5 : lx < 5 := List.mem_range.mp hlx
  apply foldl_id
  intro b' ly _hly
  have hmod : (x + lx) % 256 = x + lx := Nat.mod_eq_of_lt (by omega)
  split
  · rw [hmod]
    exact put_pixel_off_right w h b' (x + lx) _ s (by omega)
  · rfl

/-- C3 amended: each character of `draw_text` is drawn at x-origin
`(start_x + 6 * index) % 256` (a `uint8_t` parameter), and offscreen
characters are clipped pixel-by-pixel only as long as that arithmetic does
not wrap: whenever the whole string starts at or beyond the display width
and its column coordinates stay below 256, the framebuffer is left entirely
unchanged.  (When a coordinate reaches 256 it wraps modulo 256 and the
character's pixels can reappear in the visible area, as the counterexample
shows.) -/
theorem draw_text_offscreen_clipped (w h : Nat) (buf : List Nat) (x y : Nat)
    (text : List Nat) (s : Bool) (hx : w ≤ x)
    (hwrap : x + 6 * text.length ≤ 256) :
    draw_text w h buf x y text s = buf := by
  unfold draw_text
  apply foldl_id
  intro b i hi
  have hi' : i < text.length := List.mem_range.mp hi
  have hmod : (x + i * 6) % 256 = x + i * 6 := Nat.mod_eq_of_lt (by omega)
  rw [hmod]
  exact draw_char_off_right w h b (x + i * 6) y _ s (by omega) (by omega)

theorem draw_text_offscreen_clipped_witness :
    (16 : Nat) ≤ 20 ∧ 20 + 6 * [65, 66].length ≤ 256 ∧
    draw_text 16 8 (List.replicate 16 3) 20 0 [65, 66] true =
      List.replicate 16 3 :=
  ⟨by decide, by decide,
    draw_text_offscreen_clipped 16 8 (List.replicate 16 3) 20 0 [65, 66] true
      (by decide) (by decide)⟩

/-! ### Claim C8 -/

set_option maxRecDepth 8000 in
/-- C8: on a cleared 32×24 framebuffer, `draw_box 10 10 20 6 false` sets
exactly the perimeter pixels of the 21-column × 7-row rectangle with corners
(10,10) and (30,16) — no interior and no exterior pixel — and
`draw_box 10 10 20 6 true` sets exactly every pixel of that same rectangle:
the outline and filled variants cover the same extent. -/
theorem draw_box_outline_filled_extent :
    ((List.range 32).all fun px => (List.range 24).all fun py =>
      getPixel 32 (draw_box 32 24 (List.replicate 96 0) 10 10 20 6 false true)
          px py ==
        ((decide (10 ≤ px) && decide (px ≤ 30) && decide (10 ≤ py) &&
            decide (py ≤ 16)) &&
          (px == 10 || px == 30 || py == 10 || py == 16))) = true ∧
    ((List.range 32).all fun px => (List.range 24).all fun py =>
      getPixel 32 (draw_box 32 24 (List.replicate 96 0) 10 10 20 6 true true)
          px py ==
        (decide (10 ≤ px) && decide (px ≤ 30) && decide (10 ≤ py) &&
          decide (py ≤ 16))) = true := by
  have h1 : draw_box 32 24 (List.replicate 96 0) 10 10 20 6 false true =
      [0, 0, 0, 0, 0, 0, 0, 0, 0, 0, 0, 0, 0, 0, 0, 0, 0, 0, 0, 0, 0, 0, 0,
       0, 0, 0, 0, 0, 0, 0, 0, 0, 0, 0, 0, 0, 0, 0, 0, 0, 0, 0, 252, 4, 4,
       4, 4, 4, 4, 4, 4, 4, 4, 4, 4, 4, 4, 4, 4, 4, 4, 4, 252, 0, 0, 0, 0,
       0, 0, 0, 0, 0, 0, 0, 1, 1, 1, 1, 1, 1, 1, 1, 1, 1, 1, 1, 1, 1, 1, 1,
       1, 1, 1, 1, 1, 0] := by rfl
  have h2 : draw_box 32 24 (List.replicate 96 0) 10 10 20 6 true true =
      [0, 0, 0, 0, 0, 0, 0, 0, 0, 0, 0, 0, 0, 0, 0, 0, 0, 0, 0, 0, 0, 0, 0,
       0, 0, 0, 0, 0, 0, 0, 0, 0, 0, 0, 0, 0, 0, 0, 0, 0, 0, 0, 252, 252,
       252, 252, 252, 252, 252, 252, 252, 252, 252, 252, 252, 252, 252, 252,
       252, 252, 252, 252, 252, 0, 0, 0, 0, 0, 0, 0, 0, 0, 0, 0, 1, 1, 1, 1,
       1, 1, 1, 1, 1, 1, 1, 1, 1, 1, 1, 1, 1, 1, 1, 1, 1, 0] := by rfl
  rw [h1, h2]
  decide

/-! ### Claim C10, amended theorem -/

/-- C10 amended: for in-range coordinates, `set_pixel` then `clear_pixel`
restores the prior framebuffer exactly when the targeted bit was clear
beforehand (and `clear_pixel` then `set_pixel` restores it when the bit was
set beforehand); unconditionally, each operation changes at most the single
bit `y % 8` of the byte at column `x`, page `y / 8`. -/
theorem set_clear_single_bit (w h : Nat) (buf : List Nat) (x y : Nat)
    (hx : x < w) (hy : y < h) (hbytes : ∀ b ∈ buf, b < 256) :
    (getPixel w buf x y = false →
      clear_pixel w h (set_pixel w h buf x y) x y = buf) ∧
    (getPixel w buf x y = true →
      set_pixel w h (clear_pixel w h buf x y) x y = buf) ∧
    (∀ i j, ¬(i = w * (y / 8) + x ∧ j = y % 8) →
      (readByte (set_pixel w h buf x y) i).testBit j =
        (readByte buf i).testBit j ∧
      (readByte (clear_pixel w h buf x y) i).testBit j =
        (readByte buf i).testBit j) := by
  have hg : ¬(w ≤ x ∨ h ≤ y) := by omega
  have hk8 : y % 8 < 8 := Nat.mod_lt _ (by omega)
  by_cases hlen : w * (y / 8) + x < buf.length
  case neg =>
    -- the write index is past the end of the buffer: List.set is a no-op
    have hset : ∀ z : Nat, buf.set (w * (y / 8) + x) z = buf :=
      fun z => List.set_eq_of_length_le (by omega)
    have hsp : set_pixel w h buf x y = buf := by
      unfold set_pixel; rw [if_neg hg, hset]
    have hcp : clear_pixel w h buf x y = buf := by
      unfold clear_pixel; rw [if_neg hg, hset]
    refine ⟨fun _ => ?_, fun _ => ?_, fun i j _ => ?_⟩
    · rw [hsp, hcp]
    · rw [hcp, hsp]
    · rw [hsp, hcp]; exact ⟨rfl, rfl⟩
  case pos =>
    set i0 := w * (y / 8) + x with hi0
    set k := y % 8 with hk
    set v := readByte buf i0 with hv
    have hv256 : v < 256 := by
      have : v = buf[i0] := by
        simp [hv, readByte, List.getD, List.getElem?_eq_getElem hlen]
      rw [this]
      exact hbytes _ (List.getElem_mem hlen)
    have hvlo : ∀ j, 8 ≤ j → v.testBit j = false :=
      fun j hj => byte_testBit_high hv256 hj
    have hsp : set_pixel w h buf x y = buf.set i0 (v ||| (1 <<< k)) := by
      unfold set_pixel; rw [if_neg hg]
    have hcp : clear_pixel w h buf x y =
        buf.set i0 (v &&& (0xFF ^^^ (1 <<< k))) := by
      unfold clear_pixel; rw [if_neg hg]
    have hlen' : ∀ z : Nat, i0 < (buf.set i0 z).length := by
      intro z; rw [List.length_set]; exact hlen
    have hread : ∀ z : Nat, readByte (buf.set i0 z) i0 = z :=
      fun z => readByte_set_eq buf i0 z hlen
    refine ⟨fun hbit => ?_, fun hbit => ?_, fun i j hne => ?_⟩
    · -- set then clear, targeted bit initially clear
      have hvk : v.testBit k = false := hbit
      have hsp2 : clear_pixel w h (buf.set i0 (v ||| (1 <<< k))) x y =
          (buf.set i0 (v ||| (1 <<< k))).set i0
            ((v ||| (1 <<< k)) &&& (0xFF ^^^ (1 <<< k))) := by
        unfold clear_pixel; rw [if_neg hg, ← hi0, hread]
      rw [hsp, hsp2, List.set_set]
      have hbyte : (v ||| (1 <<< k)) &&& (0xFF ^^^ (1 <<< k)) = v := by
        apply Nat.eq_of_testBit_eq
        intro j
        rcases Nat.lt_or_ge j 8 with hj8 | hj8
        · by_cases hjk : j = k
          · subst hjk
            rw [Nat.testBit_and, mask_testBit_self hk8, hvk]
            simp
          · rw [Nat.testBit_and, Nat.testBit_or, mask_testBit_lo hk8 hj8 hjk,
              pow_testBit_ne (fun hc => hjk hc.symm)]
            simp
        · rw [Nat.testBit_and, Nat.testBit_or, mask_testBit_hi hk8 hj8,
            pow_testBit_ne (by omega), hvlo j hj8]
          simp
      rw [hbyte, hv, set_getD_self']
    · -- clear then set, targeted bit initially set
      have hvk : v.testBit k = true := hbit
      have hsp2 : set_pixel w h (buf.set i0 (v &&& (0xFF ^^^ (1 <<< k)))) x y =
          (buf.set i0 (v &&& (0xFF ^^^ (1 <<< k)))).set i0
            ((v &&& (0xFF ^^^ (1 <<< k))) ||| (1 <<< k)) := by
        unfold set_pixel; rw [if_neg hg, ← hi0, hread]
      rw [hcp, hsp2, List.set_set]
      have hbyte : (v &&& (0xFF ^^^ (1 <<< k))) ||| (1 <<< k) = v := by
        apply Nat.eq_of_testBit_eq
        intro j
        rcases Nat.lt_or_ge j 8 with hj8 | hj8
        · by_cases hjk : j = k
          · subst hjk
            rw [Nat.testBit_or, Nat.one_shiftLeft, Nat.testBit_two_pow_self,
              hvk]
            simp
          · rw [Nat.testBit_or, Nat.testBit_and, mask_testBit_lo hk8 hj8 hjk,
              pow_testBit_ne (fun hc => hjk hc.symm)]
            simp
        · rw [Nat.testBit_or, Nat.testBit_and, mask_testBit_hi hk8 hj8,
            pow_testBit_ne (by omega), hvlo j hj8]
          simp
      rw [hbyte, hv, set_getD_self']
    · -- locality: any other bit is untouched by either operation
      rw [hsp, hcp]
      by_cases hii : i0 = i
      · subst hii
        have hjk : ¬j = k := fun hc => hne ⟨rfl, hc⟩
        constructor
        · rw [hread, Nat.testBit_or, pow_testBit_ne (fun hc => hjk hc.symm)]
          simp
        · rw [hread, Nat.testBit_and]
          rcases Nat.lt_or_ge j 8 with hj8 | hj8
          · rw [mask_testBit_lo hk8 hj8 hjk]
            simp
          · rw [mask_testBit_hi hk8 hj8, hvlo j hj8]
            simp
      · rw [readByte_set_ne buf _ _ _ hii, readByte_set_ne buf _ _ _ hii]
        exact ⟨rfl, rfl⟩

theorem set_clear_single_bit_witness :
    (0 : Nat) < 8 ∧ (0 : Nat) < 8 ∧ (∀ b ∈ [0, 0, 0, 0, 0, 0, 0, 0], b < 256) ∧
    (getPixel 8 [0, 0, 0, 0, 0, 0, 0, 0] 0 0 = false →
      clear_pixel 8 8 (set_pixel 8 8 [0, 0, 0, 0, 0, 0, 0, 0] 0 0) 0 0 =
        [0, 0, 0, 0, 0, 0, 0, 0]) :=
  ⟨by decide, by decide, by decide,
    (set_clear_single_bit 8 8 [0, 0, 0, 0, 0, 0, 0, 0] 0 0 (by decide)
      (by decide) (by decide)).1⟩

/-! ### Claim C7: the Bresenham loop -/

theorem draw_line_loop_succ (w h x2 y2 : Nat) (sx sy dx dy : Int) (s : Bool)
    (n lx ly : Nat) (err : Int) (buf : List Nat) :
    draw_line_loop w h x2 y2 sx sy dx dy s (n + 1) lx ly err buf =
      if lx = x2 ∧ ly = y2 then some (put_pixel w h buf lx ly s)
      else
        draw_line_loop w h x2 y2 sx sy dx dy s n
          (if dy ≤ 2 * err then (((lx : Int) + sx) % 256).toNat else lx)
          (if 2 * err ≤ dx then (((ly : Int) + sy) % 256).toNat else ly)
          (if 2 * err ≤ dx then
            (if dy ≤ 2 * err then err + dy else err) + dx
           else (if dy ≤ 2 * err then err + dy else err))
          (put_pixel w h buf lx ly s) := rfl

theorem linePos_zero (c1 c2 : Nat) : linePos c1 c2 0 = c1 := by
  unfold linePos
  split <;> omega

theorem linePos_dist (c1 c2 : Nat) : linePos c1 c2 (lineDist c1 c2) = c2 := by
  unfold linePos lineDist
  split <;> omega

theorem linePos_succ (c1 c2 a : Nat) (h1 : c1 < 256) (h2 : c2 < 256)
    (ha : a < lineDist c1 c2) :
    (((linePos c1 c2 a : Int) + lineSign c1 c2) % 256).toNat =
      linePos c1 c2 (a + 1) := by
  by_cases hc : c1 < c2
  · simp only [linePos, lineSign, lineDist, if_pos hc] at *
    omega
  · simp only [linePos, lineSign, lineDist, if_neg hc] at *
    omega

/-- The Bresenham loop invariant: starting from the state reached after `a`
x-steps and `b` y-steps (position, error accumulator), with enough fuel for
the remaining steps, the loop terminates with `some` buffer in which every
pixel already holding the drawn value still holds it, the current point has
been drawn, and the endpoint `(x2, y2)` has been drawn. -/
theorem draw_line_loop_spec (w h x1 y1 x2 y2 : Nat) (s : Bool)
    (hx1 : x1 < 256) (hy1 : y1 < 256) (hx2 : x2 < 256) (hy2 : y2 < 256) :
    ∀ (fuel a b : Nat) (buf : List Nat),
      a ≤ lineDist x1 x2 → b ≤ lineDist y1 y2 →
      lineDist x1 x2 - a + (lineDist y1 y2 - b) < fuel →
      ∃ out,
        draw_line_loop w h x2 y2 (lineSign x1 x2) (lineSign y1 y2)
            (lineDist x1 x2 : Int) (-(lineDist y1 y2 : Int)) s fuel
            (linePos x1 x2 a) (linePos y1 y2 b) (lineErr x1 x2 y1 y2 a b)
            buf = some out ∧
        out.length = buf.length ∧
        (∀ p q, getPixel w buf p q = s → getPixel w out p q = s) ∧
        (linePos x1 x2 a < w → linePos y1 y2 b < h →
          w * ((h + 7) / 8) ≤ buf.length →
          getPixel w out (linePos x1 x2 a) (linePos y1 y2 b) = s) ∧
        (x2 < w → y2 < h → w * ((h + 7) / 8) ≤ buf.length →
          getPixel w out x2 y2 = s) := by
  intro fuel
  induction fuel with
  | zero =>
    intro a b buf _ _ hm
    exact absurd hm (Nat.not_lt_zero _)
  | succ n ih =>
    intro a b buf ha hb hm
    by_cases hend : linePos x1 x2 a = x2 ∧ linePos y1 y2 b = y2
    · -- final iteration: draw the endpoint and stop
      obtain ⟨he1, he2⟩ := hend
      refine ⟨put_pixel w h buf (linePos x1 x2 a) (linePos y1 y2 b) s,
        ?_, put_pixel_length w h buf _ _ s,
        fun p q hpq => put_pixel_preserves w h buf _ _ p q s hpq,
        fun hw hh hlen => put_pixel_draws w h buf _ _ s hw hh hlen,
        fun hw hh hlen => ?_⟩
      · rw [draw_line_loop_succ, if_pos ⟨he1, he2⟩]
      · rw [he1, he2]
        exact put_pixel_draws w h buf x2 y2 s hw hh hlen
    · -- not yet at the endpoint: at least one coordinate steps
      have hDX0 : (0 : Int) ≤ (lineDist x1 x2 : Int) := Int.natCast_nonneg _
      have hDY0 : (0 : Int) ≤ (lineDist y1 y2 : Int) := Int.natCast_nonneg _
      -- if the x-counter is exhausted the y-counter is not, and vice versa
      have hnotboth : ¬(a = lineDist x1 x2 ∧ b = lineDist y1 y2) := by
        rintro ⟨rfl, rfl⟩
        exact hend ⟨linePos_dist x1 x2, linePos_dist y1 y2⟩
      -- no x-overshoot: when a = dx the x-step condition is false
      have hover_x : a = lineDist x1 x2 →
          ¬(-(lineDist y1 y2 : Int) ≤ 2 * lineErr x1 x2 y1 y2 a b) := by
        intro haeq hcx
        have hbY : b < lineDist y1 y2 := by
          rcases Nat.lt_or_ge b (lineDist y1 y2) with hlt | hge
          · exact hlt
          · exact absurd ⟨haeq, by omega⟩ hnotboth
        have hble : ((b : Int) + 1) ≤ (lineDist y1 y2 : Int) := by
          exact_mod_cast hbY
        have hmul : (lineDist x1 x2 : Int) * ((b : Int) + 1) ≤
            (lineDist x1 x2 : Int) * (lineDist y1 y2 : Int) :=
          mul_le_mul_of_nonneg_left hble hDX0
        have hDY1 : (1 : Int) ≤ (lineDist y1 y2 : Int) := by
          exact_mod_cast Nat.one_le_iff_ne_zero.mpr (by omega)
        unfold lineErr at hcx
        rw [haeq] at hcx
        push_cast at hcx hmul
        nlinarith [hcx, hmul, hDY1]
      -- no y-overshoot: when b = dy the y-step condition is false
      have hover_y : b = lineDist y1 y2 →
          ¬(2 * lineErr x1 x2 y1 y2 a b ≤ (lineDist x1 x2 : Int)) := by
        intro hbeq hcy
        have haX : a < lineDist x1 x2 := by
          rcases Nat.lt_or_ge a (lineDist x1 x2) with hlt | hge
          · exact hlt
          · exact absurd ⟨by omega, hbeq⟩ hnotboth
        have hale : ((a : Int) + 1) ≤ (lineDist x1 x2 : Int) := by
          exact_mod_cast haX
        have hmul : (lineDist y1 y2 : Int) * ((a : Int) + 1) ≤
            (lineDist y1 y2 : Int) * (lineDist x1 x2 : Int) :=
          mul_le_mul_of_nonneg_left hale hDY0
        have hDX1 : (1 : Int) ≤ (lineDist x1 x2 : Int) := by
          exact_mod_cast Nat.one_le_iff_ne_zero.mpr (by omega)
        unfold lineErr at hcy
        rw [hbeq] at hcy
        push_cast at hcy hmul
        nlinarith [hcy, hmul, hDX1]
      by_cases hcx : -(lineDist y1 y2 : Int) ≤ 2 * lineErr x1 x2 y1 y2 a b
      · -- the x coordinate steps
        have haX : a < lineDist x1 x2 := by
          rcases Nat.lt_or_ge a (lineDist x1 x2) with hlt | hge
          · exact hlt
          · exact absurd hcx (hover_x (by omega))
        by_cases hcy : 2 * lineErr x1 x2 y1 y2 a b ≤ (lineDist x1 x2 : Int)
        · -- both coordinates step
          have hbY : b < lineDist y1 y2 := by
            rcases Nat.lt_or_ge b (lineDist y1 y2) with hlt | hge
            · exact hlt
            · exact absurd hcy (hover_y (by omega))
          obtain ⟨out, hrun, hlout, hpres, _hcur, hendp⟩ :=
            ih (a + 1) (b + 1)
              (put_pixel w h buf (linePos x1 x2 a) (linePos y1 y2 b) s)
              (by omega) (by omega) (by omega)
          have herr : (if 2 * lineErr x1 x2 y1 y2 a b ≤ (lineDist x1 x2 : Int)
              then (if -(lineDist y1 y2 : Int) ≤ 2 * lineErr x1 x2 y1 y2 a b
                then lineErr x1 x2 y1 y2 a b + -(lineDist y1 y2 : Int)
                else lineErr x1 x2 y1 y2 a b) + (lineDist x1 x2 : Int)
              else (if -(lineDist y1 y2 : Int) ≤ 2 * lineErr x1 x2 y1 y2 a b
                then lineErr x1 x2 y1 y2 a b + -(lineDist y1 y2 : Int)
                else lineErr x1 x2 y1 y2 a b)) =
              lineErr x1 x2 y1 y2 (a + 1) (b + 1) := by
            rw [if_pos hcy, if_pos hcx]
            unfold lineErr
            push_cast
            ring
          refine ⟨out, ?_, ?_, ?_, ?_, ?_⟩
          · rw [draw_line_loop_succ, if_neg hend, if_pos hcx, if_pos hcy,
              herr, linePos_succ x1 x2 a hx1 hx2 haX,
              linePos_succ y1 y2 b hy1 hy2 hbY]
            exact hrun
          · rw [hlout, put_pixel_length]
          · exact fun p q hpq =>
              hpres p q (put_pixel_preserves w h buf _ _ p q s hpq)
          · intro hw hh hlen
            exact hpres _ _ (put_pixel_draws w h buf _ _ s hw hh hlen)
          · intro hw hh hlen
            exact hendp hw hh (by rw [put_pixel_length]; exact hlen)
        · -- only the x coordinate steps
          obtain ⟨out, hrun, hlout, hpres, _hcur, hendp⟩ :=
            ih (a + 1) b
              (put_pixel w h buf (linePos x1 x2 a) (linePos y1 y2 b) s)
              (by omega) hb (by omega)
          have herr : (if 2 * lineErr x1 x2 y1 y2 a b ≤ (lineDist x1 x2 : Int)
              then (if -(lineDist y1 y2 : Int) ≤ 2 * lineErr x1 x2 y1 y2 a b
                then lineErr x1 x2 y1 y2 a b + -(lineDist y1 y2 : Int)
                else lineErr x1 x2 y1 y2 a b) + (lineDist x1 x2 : Int)
              else (if -(lineDist y1 y2 : Int) ≤ 2 * lineErr x1 x2 y1 y2 a b
                then lineErr x1 x2 y1 y2 a b + -(lineDist y1 y2 : Int)
                else lineErr x1 x2 y1 y2 a b)) =
              lineErr x1 x2 y1 y2 (a + 1) b := by
            rw [if_neg hcy, if_pos hcx]
            unfold lineErr
            push_cast
            ring
          refine ⟨out, ?_, ?_, ?_, ?_, ?_⟩
          · rw [draw_line_loop_succ, if_neg hend, if_pos hcx, if_neg hcy,
              herr, linePos_succ x1 x2 a hx1 hx2 haX]
            exact hrun
          · rw [hlout, put_pixel_length]
          · exact fun p q hpq =>
              hpres p q (put_pixel_preserves w h buf _ _ p q s hpq)
          · intro hw hh hlen
            exact hpres _ _ (put_pixel_draws w h buf _ _ s hw hh hlen)
          · intro hw hh hlen
            exact hendp hw hh (by rw [put_pixel_length]; exact hlen)
      · -- the x-step condition failed, so the y-step condition holds
        have hcy : 2 * lineErr x1 x2 y1 y2 a b ≤ (lineDist x1 x2 : Int) := by
          have hlt : 2 * lineErr x1 x2 y1 y2 a b < -(lineDist y1 y2 : Int) :=
            lt_of_not_le hcx
          linarith
        have hbY : b < lineDist y1 y2 := by
          rcases Nat.lt_or_ge b (lineDist y1 y2) with hlt | hge
          · exact hlt
          · exact absurd hcy (hover_y (by omega))
        obtain ⟨out, hrun, hlout, hpres, _hcur, hendp⟩ :=
          ih a (b + 1)
            (put_pixel w h buf (linePos x1 x2 a) (linePos y1 y2 b) s)
            ha (by omega) (by omega)
        have herr : (if 2 * lineErr x1 x2 y1 y2 a b ≤ (lineDist x1 x2 : Int)
            then (if -(lineDist y1 y2 : Int) ≤ 2 * lineErr x1 x2 y1 y2 a b
              then lineErr x1 x2 y1 y2 a b + -(lineDist y1 y2 : Int)
              else lineErr x1 x2 y1 y2 a b) + (lineDist x1 x2 : Int)
            else (if -(lineDist y1 y2 : Int) ≤ 2 * lineErr x1 x2 y1 y2 a b
              then lineErr x1 x2 y1 y2 a b + -(lineDist y1 y2 : Int)
              else lineErr x1 x2 y1 y2 a b)) =
            lineErr x1 x2 y1 y2 a (b + 1) := by
          rw [if_pos hcy, if_neg hcx]
          unfold lineErr
          push_cast
          ring
        refine ⟨out, ?_, ?_, ?_, ?_, ?_⟩
        · rw [draw_line_loop_succ, if_neg hend, if_neg hcx, if_pos hcy,
            herr, linePos_succ y1 y2 b hy1 hy2 hbY]
          exact hrun
        · rw [hlout, put_pixel_length]
        · exact fun p q hpq =>
            hpres p q (put_pixel_preserves w h buf _ _ p q s hpq)
        · intro hw hh hlen
          exact hpres _ _ (put_pixel_draws w h buf _ _ s hw hh hlen)
        · intro hw hh hlen
          exact hendp hw hh (by rw [put_pixel_length]; exact hlen)

/-- C7: for every pair of endpoints (any `uint8_t` coordinates), `draw_line`
terminates — the fuelled loop returns `some` — and the pixels at both
`(x1, y1)` and `(x2, y2)` hold the drawn value `s`, subject only to the
per-pixel bounds clipping; the degenerate single-point, pure-horizontal and
pure-vertical cases are instances of the same statement. -/
theorem draw_line_endpoints (w h : Nat) (buf : List Nat) (x1 y1 x2 y2 : Nat)
    (s : Bool) (hx1 : x1 < 256) (hy1 : y1 < 256) (hx2 : x2 < 256)
    (hy2 : y2 < 256) (hlen : w * ((h + 7) / 8) ≤ buf.length) :
    ∃ out, draw_line_opt w h buf x1 y1 x2 y2 s = some out ∧
      (x1 < w → y1 < h → getPixel w out x1 y1 = s) ∧
      (x2 < w → y2 < h → getPixel w out x2 y2 = s) := by
  have habsx : |(x2 : Int) - (x1 : Int)| = (lineDist x1 x2 : Int) := by
    unfold lineDist
    split
    · rw [abs_of_nonneg (by omega)]; omega
    · rw [abs_of_nonpos (by omega)]; omega
  have habsy : |(y2 : Int) - (y1 : Int)| = (lineDist y1 y2 : Int) := by
    unfold lineDist
    split
    · rw [abs_of_nonneg (by omega)]; omega
    · rw [abs_of_nonpos (by omega)]; omega
  obtain ⟨out, hrun, _hlout, _hpres, hcur, hendp⟩ :=
    draw_line_loop_spec w h x1 y1 x2 y2 s hx1 hy1 hx2 hy2
      (lineDist x1 x2 + lineDist y1 y2 + 1) 0 0 buf
      (Nat.zero_le _) (Nat.zero_le _) (by omega)
  rw [linePos_zero, linePos_zero] at hrun hcur
  refine ⟨out, ?_, fun hw hh => hcur hw hh hlen, fun hw hh => hendp hw hh hlen⟩
  simp only [draw_line_opt]
  rw [habsx, habsy, neg_neg, Int.toNat_natCast, Int.toNat_natCast]
  rw [show (if x1 < x2 then (1 : Int) else -1) = lineSign x1 x2 from rfl,
    show (if y1 < y2 then (1 : Int) else -1) = lineSign y1 y2 from rfl,
    show ((lineDist x1 x2 : Int) + -(lineDist y1 y2 : Int)) =
      lineErr x1 x2 y1 y2 0 0 from by unfold lineErr; push_cast; ring]
  exact hrun

theorem draw_line_endpoints_witness :
    (7 : Nat) < 256 ∧ (5 : Nat) < 256 ∧ (2 : Nat) < 256 ∧ (1 : Nat) < 256 ∧
    8 * ((8 + 7) / 8) ≤ (List.replicate 8 0).length ∧
    ∃ out,
      draw_line_opt 8 8 (List.replicate 8 0) 7 5 2 1 true = some out ∧
      (7 < 8 → 5 < 8 → getPixel 8 out 7 5 = true) ∧
      (2 < 8 → 1 < 8 → getPixel 8 out 2 1 = true) :=
  ⟨by decide, by decide, by decide, by decide, by decide,
    draw_line_endpoints 8 8 (List.replicate 8 0) 7 5 2 1 true (by decide)
      (by decide) (by decide) (by decide) (by decide)⟩

end PalSSD1306
